import Mathlib

/-!
Shallow embedding of the baccarat prediction engine in `src/main.js`
(class `PredictionEngine`: `predictNext`, `_evaluatePattern`,
`_evaluateCardPoints`, `_baccaratPointSum`, `_evaluateDownRoad`,
`_scoreToDecision`).

Modelling conventions:
* JavaScript numbers are modelled as exact rationals (`ℚ`); the literals
  involved (0.4, 0.3, 0.1, 0.5, 0.05, 1.5) are all exactly representable.
* Bead-road symbols and down-road colours are Lean `String`s: the source
  compares entries with the string literals `'B'`, `'P'`, `'R'`
  (spelled BANKER / PLAYER / RED / BLUE in the documentation).
* A card entry is `Option ℚ`: the result of `Number(c)` in
  `_baccaratPointSum`, with `none` standing for `NaN` (skipped).
* A field of the input object may hold any JavaScript value, not only an
  array.  `JsField α` classifies the value classes that the engine's code
  distinguishes: `undef` (absent / `undefined`, triggers destructuring
  defaults), `nullv` (`null`), `falsy` (a falsy value other than
  `null`/`undefined`: `0`, `""`, `false`, `NaN`), `truthy` (a truthy
  value that is not an array, e.g. a number or a plain object: it has no
  `slice`/`filter` method and its `.length` reads as `undefined`), and
  `arr xs` (a genuine array).
* Thrown `TypeError`s are modelled with `Except Unit`.
-/

namespace LittleP

/-- Classification of the JavaScript value held by an input field. -/
inductive JsField (α : Type) where
  | undef
  | nullv
  | falsy
  | truthy
  | arr (xs : List α)
deriving DecidableEq

/-- Destructuring default `= []`: fires on `undefined` only. -/
def JsField.defaulted : JsField α → JsField α
  | .undef => .arr []
  | v => v

/-- The `Array.isArray` test used by `_evaluateCardPoints`. -/
def JsField.isArr : JsField α → Bool
  | .arr _ => true
  | _ => false

/-- Whether the field holds JavaScript `null`. -/
def JsField.isNull : JsField α → Bool
  | .nullv => true
  | _ => false

/-- Whether the field holds a truthy non-array value. -/
def JsField.isTruthyNonArr : JsField α → Bool
  | .truthy => true
  | _ => false

/-- The body of `_evaluatePattern` (src/main.js:83-106) on an actual
array: guard `beadRoad.length === 0`, `last = beadRoad[length-1]`,
`recent = beadRoad.slice(-10)`, count `'B'` and `'P'` in `recent`,
`bias = (bankerCount-playerCount)/(bankerCount+playerCount)` when the
window has a `'B'` or `'P'`, `lastBonus = ±0.1` from `last`. -/
def evaluatePattern (beadRoad : List String) : ℚ :=
  match beadRoad.getLast? with
  | none => 0
  | some last =>
    let recent := beadRoad.drop (beadRoad.length - 10)
    let bankerCount := (recent.filter (fun r => r == "B")).length
    let playerCount := (recent.filter (fun r => r == "P")).length
    let bias : ℚ :=
      if bankerCount + playerCount > 0 then
        ((bankerCount : ℚ) - (playerCount : ℚ)) / ((bankerCount : ℚ) + (playerCount : ℚ))
      else 0
    let lastBonus : ℚ := if last == "B" then 0.1 else if last == "P" then -0.1 else 0
    bias + lastBonus

/-- Behaviour of `_evaluatePattern` on an arbitrary JavaScript value.  A falsy value
(`undefined`, `null`, `0`, `""`, `false`, `NaN`) returns 0 through the
`!beadRoad` guard; an array runs the body; a truthy non-array value
passes the guard (`undefined === 0` is false) and then throws a
`TypeError` at `beadRoad.slice(-10)` (or, for a string, at
`recent.filter`). -/
def evaluatePatternJs : JsField String → Except Unit ℚ
  | .arr xs => .ok (evaluatePattern xs)
  | .undef => .ok 0
  | .nullv => .ok 0
  | .falsy => .ok 0
  | .truthy => .error ()

/-- JavaScript truncated (toward-zero) integer quotient, used by `%`. -/
def jsTrunc (q : ℚ) : ℤ := if 0 ≤ q then ⌊q⌋ else ⌈q⌉

/-- JavaScript remainder `x % y` (sign follows `x`). -/
def jsMod (x y : ℚ) : ℚ := x - y * (jsTrunc (x / y) : ℚ)

/-- The function `_baccaratPointSum` (src/main.js:135-144): skip `NaN` entries, map
`v >= 10` to 0, accumulate, and reduce the running sum `% 10`. -/
def baccaratPointSum (cards : List (Option ℚ)) : ℚ :=
  jsMod (cards.foldl (fun sum c =>
    match c with
    | none => sum
    | some v => sum + (if 10 ≤ v then 0 else v)) 0) 10

/-- The function `_evaluateCardPoints` (src/main.js:111-132): if either argument is
not an array the whole sub-score is 0; otherwise compare the two
baccarat point sums. -/
def evaluateCardPoints (bankerCards playerCards : JsField (Option ℚ)) : ℚ :=
  match bankerCards, playerCards with
  | .arr b, .arr p =>
    let bankerTotal := baccaratPointSum b
    let playerTotal := baccaratPointSum p
    let diff := bankerTotal - playerTotal
    if diff > 0 then -0.3 else if diff < 0 then 0.3 else 0
  | _, _ => 0

/-- The three down-road sequences destructured from the `downRoad`
object in `_evaluateDownRoad`. -/
structure DownRoadObj where
  bigEye : JsField String
  smallRoad : JsField String
  cockroach : JsField String
deriving DecidableEq

/-- The `downRoad` input field.  `absent` stands for any value that is
not an object with own properties (`undefined`, `null`, other falsy
values, or a primitive): destructuring such a value, after the
`downRoad || {}` guard, yields `undefined` for every sub-field, so all
three default to `[]`. -/
inductive DownField where
  | absent
  | obj (o : DownRoadObj)
deriving DecidableEq

/-- Reading `xs[xs.length - 1]` from a sub-field value (after its `= []`
destructuring default).  On an array this is the last element (or
`undefined` = `none` when empty); on `null` or `undefined` the `.length`
access throws a `TypeError`; on any other non-array value `.length`
reads as `undefined`, so the index is `NaN` and the read is
`undefined`. -/
def readLast : JsField α → Except Unit (Option α)
  | .arr xs => .ok xs.getLast?
  | .undef => .error ()
  | .nullv => .error ()
  | .falsy => .ok none
  | .truthy => .ok none

/-- The `toScore` closure in `_evaluateDownRoad` (src/main.js:159-163),
applied to a possibly-`undefined` last entry. -/
def toScore : Option String → ℚ
  | some c => if c == "R" then 0.5 else if c == "B" then -0.5 else 0
  | none => 0

/-- The function `_evaluateDownRoad` (src/main.js:149-172): destructure the three
sub-fields with `= []` defaults, read each one's last entry (in source
order, so the first throwing read wins), score the colours and divide by
1.5. -/
def evaluateDownRoad (downRoad : DownField) : Except Unit ℚ :=
  let o : DownRoadObj :=
    match downRoad with
    | .absent => ⟨.undef, .undef, .undef⟩
    | .obj o => o
  match readLast o.bigEye.defaulted with
  | .error e => .error e
  | .ok lastBig =>
    match readLast o.smallRoad.defaulted with
    | .error e => .error e
    | .ok lastSmall =>
      match readLast o.cockroach.defaulted with
      | .error e => .error e
      | .ok lastCockroach =>
        .ok ((toScore lastBig + toScore lastSmall + toScore lastCockroach) / 1.5)

/-- The weight configuration set in the constructor (src/main.js:14-18). -/
structure Weights where
  pattern : ℚ
  cardPoints : ℚ
  downRoad : ℚ
deriving DecidableEq

/-- The reference weights 0.4 / 0.3 / 0.3. -/
def weights : Weights := ⟨0.4, 0.3, 0.3⟩

/-- The `{ side, sideText }` record returned by `_scoreToDecision`. -/
structure Decision where
  side : String
  sideText : String
deriving DecidableEq

/-- The function `_scoreToDecision` (src/main.js:177-187). -/
def scoreToDecision (totalScore : ℚ) : Decision :=
  if totalScore > 0.05 then ⟨"BANKER", "莊"⟩
  else if totalScore < -0.05 then ⟨"PLAYER", "閒"⟩
  else ⟨"PLAYER", "閒"⟩

/-- The `raw` record of the output. -/
structure RawScores where
  patternScore : ℚ
  cardScore : ℚ
  downRoadScore : ℚ
  totalScore : ℚ
deriving DecidableEq

/-- The value returned by `predictNext`. -/
structure Output where
  side : String
  sideText : String
  confidence : ℚ
  raw : RawScores
deriving DecidableEq

/-- The `input` object of `predictNext`.  Each field may hold an
arbitrary JavaScript value, classified by `JsField` / `DownField`. -/
structure Input where
  beadRoad : JsField String
  bankerCards : JsField (Option ℚ)
  playerCards : JsField (Option ℚ)
  downRoad : DownField
deriving DecidableEq

/-- The record all fields destructure from when `input` is falsy or has
no own properties (`input || {}` followed by defaults). -/
def defaultInput : Input := ⟨.undef, .undef, .undef, .absent⟩

/-- The function `predictNext` (src/main.js:35-78), parametric in the engine's
`this.weights`.  `none` stands for a falsy (or property-less) `input`.
Sub-scores are computed in source order, so a throwing pattern
evaluation pre-empts a throwing down-road evaluation. -/
def predictNextW (w : Weights) (input : Option Input) : Except Unit Output :=
  let i := input.getD defaultInput
  match evaluatePatternJs i.beadRoad.defaulted with
  | .error e => .error e
  | .ok patternScore =>
    let cardScore := evaluateCardPoints i.bankerCards.defaulted i.playerCards.defaulted
    match evaluateDownRoad i.downRoad with
    | .error e => .error e
    | .ok downRoadScore =>
      let totalScore :=
        patternScore * w.pattern + cardScore * w.cardPoints + downRoadScore * w.downRoad
      let result := scoreToDecision totalScore
      let confidence := min 1 |totalScore|
      .ok ⟨result.side, result.sideText, confidence,
        ⟨patternScore, cardScore, downRoadScore, totalScore⟩⟩

/-- The `predictNext` call of the engine constructed with the reference weights
(the global `predictionEngine` instance). -/
def predictNext (input : Option Input) : Except Unit Output :=
  predictNextW weights input

/-- An engine instance: its only state is `this.weights`. -/
structure PredictionEngine where
  weights : Weights
deriving DecidableEq

/-- The constructor call `new PredictionEngine()`. -/
def PredictionEngine.new : PredictionEngine := ⟨⟨0.4, 0.3, 0.3⟩⟩

/-- A call `engine.predictNext(input)` as a state transition: the
returned engine is the receiver after the call.  The method body only
reads `this.weights` and assigns nothing, so the state is returned
unchanged. -/
def PredictionEngine.predict (e : PredictionEngine) (input : Option Input) :
    Except Unit Output × PredictionEngine :=
  (predictNextW e.weights input, e)

/-- Whether every down-road sub-field avoids the `null.length`
`TypeError` path of `_evaluateDownRoad`. -/
def DownField.nullFree : DownField → Bool
  | .absent => true
  | .obj o => !o.bigEye.isNull && !o.smallRoad.isNull && !o.cockroach.isNull

/-- The pattern score as the specification words it: over at most the
last 10 entries count BANKER and PLAYER occurrences, take their
normalized difference as `bias` (0 when the window has neither), and add
a `lastBonus` of +0.1 / -0.1 / 0 from the most recent entry of the full
sequence; an empty road scores 0.  Stated with `reverse.take` so that it
is an independent reading of "the last 10 entries". -/
def patternSpecScore (beadRoad : List String) : ℚ :=
  if beadRoad = [] then 0
  else
    let window := beadRoad.reverse.take 10
    let bankerCount := window.count "B"
    let playerCount := window.count "P"
    let bias : ℚ :=
      if bankerCount + playerCount = 0 then 0
      else ((bankerCount : ℚ) - (playerCount : ℚ)) / ((bankerCount : ℚ) + (playerCount : ℚ))
    let lastBonus : ℚ :=
      match beadRoad.getLast? with
      | some s => if s = "B" then 0.1 else if s = "P" then -0.1 else 0
      | none => 0
    bias + lastBonus

/-- The baccarat point sum as the specification words it: drop the
non-numeric entries, map each value `v` to 0 when `v ≥ 10` and to `v`
otherwise, sum the mapped list, and reduce the total modulo 10. -/
def pointSumSpec (cards : List (Option ℚ)) : ℚ :=
  jsMod (((cards.filterMap id).map (fun v => if 10 ≤ v then 0 else v)).sum) 10

/-- The demo input of the end-to-end example (`runDemoPrediction`). -/
def demoInput : Input :=
  ⟨.arr ["B", "P", "B", "B", "P", "B", "B", "P", "B", "B"],
   .arr [some 4, some 6], .arr [some 9, some 1],
   .obj ⟨.arr ["R", "R", "R", "R"], .arr ["R", "R", "B"], .arr ["R", "R", "R"]⟩⟩

/-- The output of `predictNext` on the demo input: the recent window
holds 7 `B` and 3 `P`, so `bias = 0.4`, `patternScore = 0.5`,
`cardScore = 0`, `downRoadScore = 1/3`, and
`totalScore = 0.5*0.4 + 0*0.3 + (1/3)*0.3 = 0.3`. -/
def demoOutput : Output := ⟨"BANKER", "莊", 3/10, ⟨1/2, 0, 1/3, 3/10⟩⟩

section Helpers

/-- Every decision record carries side BANKER or PLAYER. -/
theorem scoreToDecision_side_cases (t : ℚ) :
    (scoreToDecision t).side = "BANKER" ∨ (scoreToDecision t).side = "PLAYER" := by
  unfold scoreToDecision
  split_ifs <;> simp

/-- The pattern sub-score is bounded by 1.1 in absolute value. -/
theorem abs_evaluatePattern_le (xs : List String) : |evaluatePattern xs| ≤ 1.1 := by
  unfold evaluatePattern
  cases hl : xs.getLast? with
  | none => norm_num
  | some s =>
    have h2 : |(if (s == "B") = true then (0.1 : ℚ)
        else if (s == "P") = true then -0.1 else 0)| ≤ 0.1 := by
      split_ifs <;> norm_num [abs_le]
    set b := ((xs.drop (xs.length - 10)).filter (fun r => r == "B")).length with hb
    set p := ((xs.drop (xs.length - 10)).filter (fun r => r == "P")).length with hp
    have h1 : |(if b + p > 0 then ((b : ℚ) - (p : ℚ)) / ((b : ℚ) + (p : ℚ)) else 0)| ≤ 1 := by
      split_ifs with h
      · have hbp : (0 : ℚ) < (b : ℚ) + (p : ℚ) := by exact_mod_cast h
        rw [abs_div, abs_of_pos hbp, div_le_one hbp, abs_sub_le_iff]
        have hbn : (0 : ℚ) ≤ (b : ℚ) := Nat.cast_nonneg b
        have hpn : (0 : ℚ) ≤ (p : ℚ) := Nat.cast_nonneg p
        constructor <;> linarith
      · norm_num
    calc |(if b + p > 0 then ((b : ℚ) - (p : ℚ)) / ((b : ℚ) + (p : ℚ)) else 0) +
          (if (s == "B") = true then (0.1 : ℚ)
            else if (s == "P") = true then -0.1 else 0)| ≤ _ + _ := abs_add _ _
      _ ≤ 1 + 0.1 := add_le_add h1 h2
      _ ≤ 1.1 := by norm_num

/-- A non-throwing run of the pattern evaluation is bounded by 1.1. -/
theorem evaluatePatternJs_ok_abs_le (f : JsField String) (q : ℚ)
    (h : evaluatePatternJs f = .ok q) : |q| ≤ 1.1 := by
  cases f <;> simp [evaluatePatternJs] at h
  case arr xs => exact h ▸ abs_evaluatePattern_le xs
  all_goals subst h; norm_num

/-- The sign comparison at the end of `_evaluateCardPoints` takes one
of three values. -/
theorem signBranch_mem (x y : ℚ) :
    (if x - y > 0 then (-0.3 : ℚ) else if x - y < 0 then 0.3 else 0) = -0.3 ∨
      (if x - y > 0 then (-0.3 : ℚ) else if x - y < 0 then 0.3 else 0) = 0 ∨
      (if x - y > 0 then (-0.3 : ℚ) else if x - y < 0 then 0.3 else 0) = 0.3 := by
  split_ifs with h1 h2
  · exact Or.inl rfl
  · exact Or.inr (Or.inr rfl)
  · exact Or.inr (Or.inl rfl)

/-- The card sub-score only takes the values -0.3, 0 and 0.3. -/
theorem evaluateCardPoints_mem (b p : JsField (Option ℚ)) :
    evaluateCardPoints b p = -0.3 ∨ evaluateCardPoints b p = 0 ∨
      evaluateCardPoints b p = 0.3 := by
  cases b <;> cases p <;> try exact Or.inr (Or.inl rfl)
  case arr.arr xs ys => exact signBranch_mem (baccaratPointSum xs) (baccaratPointSum ys)

/-- The card sub-score is bounded by 0.3 in absolute value. -/
theorem abs_evaluateCardPoints_le (b p : JsField (Option ℚ)) :
    |evaluateCardPoints b p| ≤ 0.3 := by
  rcases evaluateCardPoints_mem b p with h | h | h <;> rw [h] <;> norm_num [abs_le]

/-- Each colour contribution is bounded by 0.5 in absolute value. -/
theorem abs_toScore_le (c : Option String) : |toScore c| ≤ 0.5 := by
  cases c with
  | none => norm_num [toScore]
  | some s =>
    simp only [toScore]
    split_ifs <;> norm_num [abs_le]

/-- A non-throwing down-road evaluation produces the normalized sum of
three colour contributions. -/
theorem evaluateDownRoad_ok_shape (d : DownField) (q : ℚ)
    (h : evaluateDownRoad d = .ok q) :
    ∃ a b c, q = (toScore a + toScore b + toScore c) / 1.5 := by
  rcases d with _ | o
  · refine ⟨none, none, none, ?_⟩
    simp only [evaluateDownRoad, readLast, JsField.defaulted, List.getLast?,
      Except.ok.injEq] at h
    exact h.symm
  · rcases h1 : readLast o.bigEye.defaulted with e | a
    · simp [evaluateDownRoad, h1] at h
    · rcases h2 : readLast o.smallRoad.defaulted with e | b
      · simp [evaluateDownRoad, h1, h2] at h
      · rcases h3 : readLast o.cockroach.defaulted with e | c
        · simp [evaluateDownRoad, h1, h2, h3] at h
        · refine ⟨a, b, c, ?_⟩
          simp [evaluateDownRoad, h1, h2, h3] at h
          exact h.symm

/-- A non-throwing down-road evaluation is bounded by 1 in absolute
value. -/
theorem evaluateDownRoad_ok_abs_le (d : DownField) (q : ℚ)
    (h : evaluateDownRoad d = .ok q) : |q| ≤ 1 := by
  obtain ⟨a, b, c, rfl⟩ := evaluateDownRoad_ok_shape d q h
  have ha := abs_toScore_le a
  have hb := abs_toScore_le b
  have hc := abs_toScore_le c
  have habc : |toScore a + toScore b + toScore c| ≤ 1.5 :=
    calc |toScore a + toScore b + toScore c|
        ≤ |toScore a + toScore b| + |toScore c| := abs_add _ _
      _ ≤ |toScore a| + |toScore b| + |toScore c| := by
          have := abs_add (toScore a) (toScore b)
          linarith
      _ ≤ 1.5 := by linarith
  rw [abs_div]
  rw [div_le_one (by norm_num : (0 : ℚ) < |1.5|)]
  exact le_trans habc (le_abs_self _)

/-- The accumulating loop of `_baccaratPointSum` computes the sum of the
mapped numeric entries. -/
theorem foldl_points (cards : List (Option ℚ)) (a : ℚ) :
    (cards.foldl (fun sum c =>
      match c with
      | none => sum
      | some v => sum + (if 10 ≤ v then 0 else v)) a) =
    a + (((cards.filterMap id).map (fun v => if 10 ≤ v then 0 else v)).sum) := by
  induction cards generalizing a with
  | nil => simp
  | cons c t ih =>
    cases c with
    | none => simp [List.filterMap_cons, ih]
    | some v =>
      simp [List.filterMap_cons, ih]
      ring

/-- Filtering the drop-based last-10 window counts the same entries as
the reversed take-10 window. -/
theorem lastTen_count (p : String → Bool) (xs : List String) :
    ((xs.drop (xs.length - 10)).filter p).length = (xs.reverse.take 10).countP p := by
  rw [List.take_reverse, List.countP_reverse, List.countP_eq_length_filter]

/-- The colour symbols `B` and `R` are distinct strings. -/
theorem string_B_ne_R : ¬("B" : String) = "R" := by decide

/-- The sign comparison is antisymmetric in its two arguments. -/
theorem signBranch_neg (x y : ℚ) :
    (if x - y > 0 then (-0.3 : ℚ) else if x - y < 0 then 0.3 else 0) =
      -(if y - x > 0 then (-0.3 : ℚ) else if y - x < 0 then 0.3 else 0) := by
  rcases lt_trichotomy x y with h | h | h
  · rw [if_neg (by linarith), if_pos (by linarith), if_pos (by linarith)]
    try norm_num
  · subst h
    simp only [sub_self]
    try norm_num
  · rw [if_pos (by linarith), if_neg (by linarith), if_pos (by linarith)]
    try norm_num

/-- Evaluation of `predictNext` on the demo input. -/
theorem predictNext_demo : predictNext (some demoInput) = .ok demoOutput := by
  simp [predictNext, predictNextW, demoInput, demoOutput, defaultInput, weights,
    evaluatePatternJs, evaluatePattern, evaluateCardPoints, evaluateDownRoad,
    baccaratPointSum, jsMod, jsTrunc, readLast, toScore, scoreToDecision,
    JsField.defaulted]
  norm_num
  rw [show |(3 : ℚ)/10| = 3/10 from abs_of_nonneg (by norm_num)]
  exact inf_eq_right.mpr (by norm_num)

/-- A throwing pattern evaluation makes the whole call throw. -/
theorem predictNextW_err_pattern (w : Weights) (i : Option Input) (e : Unit)
    (hp : evaluatePatternJs (i.getD defaultInput).beadRoad.defaulted = .error e) :
    predictNextW w i = .error e := by
  simp only [predictNextW]
  rw [hp]

/-- A throwing down-road evaluation (after a clean pattern evaluation)
makes the whole call throw. -/
theorem predictNextW_err_down (w : Weights) (i : Option Input) (p : ℚ) (e : Unit)
    (hp : evaluatePatternJs (i.getD defaultInput).beadRoad.defaulted = .ok p)
    (hd : evaluateDownRoad (i.getD defaultInput).downRoad = .error e) :
    predictNextW w i = .error e := by
  simp only [predictNextW]
  rw [hp, hd]

/-- When both throwing sub-evaluations succeed, the call returns the
fully-assembled output record. -/
theorem predictNextW_ok_eq (w : Weights) (i : Option Input) (p d : ℚ)
    (hp : evaluatePatternJs (i.getD defaultInput).beadRoad.defaulted = .ok p)
    (hd : evaluateDownRoad (i.getD defaultInput).downRoad = .ok d) :
    predictNextW w i = .ok
      ⟨(scoreToDecision (p * w.pattern +
          evaluateCardPoints (i.getD defaultInput).bankerCards.defaulted
            (i.getD defaultInput).playerCards.defaulted * w.cardPoints +
          d * w.downRoad)).side,
       (scoreToDecision (p * w.pattern +
          evaluateCardPoints (i.getD defaultInput).bankerCards.defaulted
            (i.getD defaultInput).playerCards.defaulted * w.cardPoints +
          d * w.downRoad)).sideText,
       min 1 |p * w.pattern +
          evaluateCardPoints (i.getD defaultInput).bankerCards.defaulted
            (i.getD defaultInput).playerCards.defaulted * w.cardPoints +
          d * w.downRoad|,
       ⟨p,
        evaluateCardPoints (i.getD defaultInput).bankerCards.defaulted
          (i.getD defaultInput).playerCards.defaulted,
        d,
        p * w.pattern +
          evaluateCardPoints (i.getD defaultInput).bankerCards.defaulted
            (i.getD defaultInput).playerCards.defaulted * w.cardPoints +
          d * w.downRoad⟩⟩ := by
  simp only [predictNextW]
  rw [hp, hd]

/-- A bead-road field that is not a truthy non-array never throws. -/
theorem evaluatePatternJs_ok_exists (f : JsField String)
    (h : f.isTruthyNonArr = false) : ∃ q, evaluatePatternJs f.defaulted = .ok q := by
  cases f with
  | undef => exact ⟨evaluatePattern [], rfl⟩
  | nullv => exact ⟨0, rfl⟩
  | falsy => exact ⟨0, rfl⟩
  | truthy => simp [JsField.isTruthyNonArr] at h
  | arr xs => exact ⟨evaluatePattern xs, rfl⟩

/-- Reading the last entry of a non-null sub-field never throws. -/
theorem readLast_ok_exists (f : JsField String) (h : f.isNull = false) :
    ∃ a, readLast f.defaulted = .ok a := by
  cases f with
  | undef => exact ⟨none, rfl⟩
  | nullv => simp [JsField.isNull] at h
  | falsy => exact ⟨none, rfl⟩
  | truthy => exact ⟨none, rfl⟩
  | arr xs => exact ⟨xs.getLast?, rfl⟩

/-- A down-road field with no null sub-field never throws. -/
theorem evaluateDownRoad_ok_exists (d : DownField) (h : d.nullFree = true) :
    ∃ q, evaluateDownRoad d = .ok q := by
  cases d with
  | absent => exact ⟨(toScore none + toScore none + toScore none) / 1.5, rfl⟩
  | obj o =>
    have h3 : (o.bigEye.isNull = false ∧ o.smallRoad.isNull = false) ∧
        o.cockroach.isNull = false := by
      simpa [DownField.nullFree, Bool.and_eq_true, Bool.not_eq_true'] using h
    obtain ⟨a, ha⟩ := readLast_ok_exists o.bigEye h3.1.1
    obtain ⟨b, hb⟩ := readLast_ok_exists o.smallRoad h3.1.2
    obtain ⟨c, hc⟩ := readLast_ok_exists o.cockroach h3.2
    refine ⟨(toScore a + toScore b + toScore c) / 1.5, ?_⟩
    simp only [evaluateDownRoad]
    rw [ha, hb, hc]

/-- Weighted-sum bound from the three sub-score bounds. -/
theorem abs_total_le (p c d : ℚ) (hp : |p| ≤ 1.1) (hc : |c| ≤ 0.3) (hd : |d| ≤ 1) :
    |p * 0.4 + c * 0.3 + d * 0.3| ≤ 0.83 := by
  have t1 : |p * 0.4| = |p| * 0.4 := by rw [abs_mul]; norm_num
  have t2 : |c * 0.3| = |c| * 0.3 := by rw [abs_mul]; norm_num
  have t3 : |d * 0.3| = |d| * 0.3 := by rw [abs_mul]; norm_num
  have s1 : |p * 0.4 + c * 0.3 + d * 0.3| ≤ |p * 0.4 + c * 0.3| + |d * 0.3| :=
    abs_add _ _
  have s2 : |p * 0.4 + c * 0.3| ≤ |p * 0.4| + |c * 0.3| := abs_add _ _
  have m1 : |p| * 0.4 ≤ 1.1 * 0.4 := mul_le_mul_of_nonneg_right hp (by norm_num)
  have m2 : |c| * 0.3 ≤ 0.3 * 0.3 := mul_le_mul_of_nonneg_right hc (by norm_num)
  have m3 : |d| * 0.3 ≤ 1 * 0.3 := mul_le_mul_of_nonneg_right hd (by norm_num)
  have hval : (1.1 : ℚ) * 0.4 + 0.3 * 0.3 + 1 * 0.3 = 0.83 := by norm_num
  rw [t3] at s1
  rw [t1, t2] at s2
  linarith

end Helpers

/-- C1 (counterexample): a truthy non-array `beadRoad` (e.g. the number
42) reaches `beadRoad.slice(-10)` and throws a `TypeError`; a `null`
down-road sub-field reaches `bigEye.length` and throws a `TypeError`. -/
theorem claim_C1_counterexample :
    predictNext (some ⟨.truthy, .undef, .undef, .absent⟩) = .error () ∧
    predictNext (some ⟨.arr ["B"], .undef, .undef,
      .obj ⟨.nullv, .undef, .undef⟩⟩) = .error () :=
  ⟨rfl, rfl⟩

/-- C1 (amended): for every input whose `beadRoad` is absent, falsy or
an array (not a truthy non-array value) and whose down-road sub-fields
are not `null`, `predictNext` terminates normally with a side that is
BANKER or PLAYER and a confidence in [0,1]; the excluded shapes throw a
`TypeError`. -/
theorem claim_C1 (i : Option Input)
    (h1 : (i.getD defaultInput).beadRoad.isTruthyNonArr = false)
    (h2 : (i.getD defaultInput).downRoad.nullFree = true) :
    ∃ o, predictNext i = .ok o ∧
      (o.side = "BANKER" ∨ o.side = "PLAYER") ∧
      0 ≤ o.confidence ∧ o.confidence ≤ 1 := by
  obtain ⟨p, hp⟩ := evaluatePatternJs_ok_exists _ h1
  obtain ⟨d, hd⟩ := evaluateDownRoad_ok_exists _ h2
  refine ⟨_, predictNextW_ok_eq weights i p d hp hd, ?_, ?_, ?_⟩
  · exact scoreToDecision_side_cases _
  · exact le_min (by norm_num) (abs_nonneg _)
  · exact min_le_left _ _

/-- C1 (witness): the amended claim at the demo input. -/
theorem claim_C1_witness :
    ∃ o, predictNext (some demoInput) = .ok o ∧
      (o.side = "BANKER" ∨ o.side = "PLAYER") ∧
      0 ≤ o.confidence ∧ o.confidence ≤ 1 :=
  claim_C1 (some demoInput) rfl rfl

/-- C9: on every non-throwing run, the total score is at most 0.83 in
absolute value, so the `min(1, ·)` clamp never binds: the confidence
equals `|totalScore|` exactly and is strictly below 1. -/
theorem claim_C9 (i : Option Input) (o : Output) (h : predictNext i = .ok o) :
    |o.raw.totalScore| ≤ 0.83 ∧ o.confidence = |o.raw.totalScore| ∧
      o.confidence < 1 := by
  rcases hp : evaluatePatternJs (i.getD defaultInput).beadRoad.defaulted with e | p
  · rw [show predictNext i = .error e from predictNextW_err_pattern weights i e hp] at h
    exact absurd h (by simp)
  · rcases hd : evaluateDownRoad (i.getD defaultInput).downRoad with e | d
    · rw [show predictNext i = .error e from
        predictNextW_err_down weights i p e hp hd] at h
      exact absurd h (by simp)
    · rw [show predictNext i = predictNextW weights i from rfl,
        predictNextW_ok_eq weights i p d hp hd, Except.ok.injEq] at h
      subst h
      have h1 := evaluatePatternJs_ok_abs_le _ _ hp
      have h2 := abs_evaluateCardPoints_le
        (i.getD defaultInput).bankerCards.defaulted
        (i.getD defaultInput).playerCards.defaulted
      have h3 := evaluateDownRoad_ok_abs_le _ _ hd
      have htot := abs_total_le p
        (evaluateCardPoints (i.getD defaultInput).bankerCards.defaulted
          (i.getD defaultInput).playerCards.defaulted) d h1 h2 h3
      have hw : |p * weights.pattern +
          evaluateCardPoints (i.getD defaultInput).bankerCards.defaulted
            (i.getD defaultInput).playerCards.defaulted * weights.cardPoints +
          d * weights.downRoad| ≤ 0.83 := by
        simpa [weights] using htot
      refine ⟨hw, ?_, ?_⟩
      · exact min_eq_right (le_trans hw (by norm_num))
      · exact lt_of_le_of_lt (le_trans (min_le_right _ _) hw) (by norm_num)

/-- C9 (witness): the bound and the exact confidence at the demo
input. -/
theorem claim_C9_witness :
    |demoOutput.raw.totalScore| ≤ 0.83 ∧
      demoOutput.confidence = |demoOutput.raw.totalScore| ∧
      demoOutput.confidence < 1 :=
  claim_C9 (some demoInput) demoOutput predictNext_demo

/-- C2 (counterexample): with `playerCards = [5]`, a non-array
`bankerCards` makes the whole card sub-score 0, while `bankerCards = []`
gives sub-score 0.3 — so a non-array sub-field is NOT equivalent to an
empty one. -/
theorem claim_C2_counterexample :
    Except.map (fun o => o.raw.cardScore)
        (predictNext (some ⟨.arr [], .truthy, .arr [some 5], .absent⟩)) = .ok 0 ∧
    Except.map (fun o => o.raw.cardScore)
        (predictNext (some ⟨.arr [], .arr [], .arr [some 5], .absent⟩)) = .ok (3/10) ∧
    (0 : ℚ) ≠ 3/10 := by
  refine ⟨?_, ?_, by norm_num⟩ <;>
    simp only [predictNext, predictNextW, defaultInput, weights, evaluatePatternJs,
      evaluatePattern, evaluateCardPoints, evaluateDownRoad, baccaratPointSum,
      jsMod, jsTrunc, readLast, toScore, scoreToDecision, JsField.defaulted,
      List.getLast?, List.foldl, Except.map] <;>
    norm_num

/-- C2 (amended): if `bankerCards` or `playerCards` holds a non-array
value, `_evaluateCardPoints` returns 0 for the whole card sub-score (the
other hand is not scored); only an absent (`undefined`) field is
replaced by the empty array and evaluated normally. -/
theorem claim_C2 (b p : JsField (Option ℚ)) (h : b.isArr = false ∨ p.isArr = false) :
    evaluateCardPoints b p = 0 := by
  cases b <;> cases p <;> first
    | rfl
    | (exfalso; simp [JsField.isArr] at h)

/-- C2 (witness): the amended claim at `bankerCards` truthy non-array,
`playerCards = [5]`. -/
theorem claim_C2_witness :
    evaluateCardPoints JsField.truthy (JsField.arr [some 5]) = 0 :=
  claim_C2 JsField.truthy (JsField.arr [some 5]) (Or.inl rfl)

/-- C3: the decision is BANKER exactly when `totalScore > 0.05`; any
score below -0.05 gives PLAYER, and the whole closed band
`[-0.05, 0.05]` (both boundaries and 0 included) also gives PLAYER. -/
theorem claim_C3 (t : ℚ) :
    ((scoreToDecision t).side = "BANKER" ↔ 0.05 < t) ∧
    (t < -0.05 → (scoreToDecision t).side = "PLAYER") ∧
    (-0.05 ≤ t → t ≤ 0.05 → (scoreToDecision t).side = "PLAYER") := by
  refine ⟨?_, fun h => ?_, fun h1 h2 => ?_⟩
  · by_cases ha : t > 0.05
    · simp [scoreToDecision, ha]
    · simp [scoreToDecision, ha]
  · have ht : t < 0.05 := lt_trans h (by norm_num)
    simp [scoreToDecision, not_lt.mpr ht.le]
  · simp [scoreToDecision, not_lt.mpr h2]

/-- C3 (witness): a total score of exactly 0.05 resolves to PLAYER. -/
theorem claim_C3_witness : (scoreToDecision (1/20)).side = "PLAYER" :=
  (claim_C3 (1/20)).2.2 (by norm_num) (by norm_num)

/-- C7 (counterexample): on the end-to-end example input the engine
computes `patternScore = 0.5` (the window holds 7 `B` and 3 `P`, not
6 and 4), `totalScore = 0.3` and `confidence = 0.3`, contradicting the
claimed `patternScore = 0.3`, `totalScore = 0.22`, `confidence ≈ 0.22`. -/
theorem claim_C7_counterexample :
    predictNext (some demoInput) = .ok demoOutput ∧
    demoOutput.raw.patternScore ≠ 3/10 ∧
    demoOutput.raw.totalScore ≠ 11/50 ∧
    demoOutput.confidence ≠ 11/50 := by
  refine ⟨predictNext_demo, ?_, ?_, ?_⟩ <;> norm_num [demoOutput]

/-- C7 (amended): on the example input the recent window counts 7 BANKER
and 3 PLAYER, so `bias = 0.4`, `lastBonus = 0.1`, `patternScore = 0.5`;
`cardScore = 0` (both hands reduce to digit 0);
`downRoadScore = (0.5 - 0.5 + 0.5)/1.5 = 1/3`; `totalScore = 0.3`;
`side = BANKER` and `confidence = 0.3`. -/
theorem claim_C7 :
    predictNext (some demoInput) =
      .ok ⟨"BANKER", "莊", 3/10, ⟨1/2, 0, 1/3, 3/10⟩⟩ :=
  predictNext_demo

/-- C8: a call's state transition returns the engine unchanged, and a
second call on the returned engine with the same input produces the
identical output value (same side, sideText, confidence and all four raw
scores). -/
theorem claim_C8 (e : PredictionEngine) (i : Option Input) :
    (e.predict i).2 = e ∧ ((e.predict i).2.predict i).1 = (e.predict i).1 :=
  ⟨rfl, rfl⟩

/-- C4: the pattern score equals the specification's formulation — bias
over at most the last 10 entries (counting only `B` and `P`, 0 when the
window has neither) plus a ±0.1 bonus from the very last entry of the
full sequence, 0 for an empty road; and a road of 15 `B` entries scores
the same as its last-10 slice alone. -/
theorem claim_C4 :
    (∀ xs : List String, evaluatePattern xs = patternSpecScore xs) ∧
    evaluatePattern (List.replicate 15 "B") = evaluatePattern (List.replicate 10 "B") := by
  constructor
  · intro xs
    cases hl : xs.getLast? with
    | none =>
      have hx : xs = [] := List.getLast?_eq_none_iff.mp hl
      subst hx
      rfl
    | some s =>
      have hx : ¬xs = [] := by rintro rfl; simp at hl
      have hB : ((xs.drop (xs.length - 10)).filter (fun r => r == "B")).length =
          (xs.reverse.take 10).count "B" := lastTen_count (fun r => r == "B") xs
      have hP : ((xs.drop (xs.length - 10)).filter (fun r => r == "P")).length =
          (xs.reverse.take 10).count "P" := lastTen_count (fun r => r == "P") xs
      simp only [evaluatePattern, patternSpecScore, hl, if_neg hx]
      rw [hB, hP]
      set bc := (xs.reverse.take 10).count "B" with hbc
      set pc := (xs.reverse.take 10).count "P" with hpc
      rcases Nat.eq_zero_or_pos (bc + pc) with h0 | h0
      · rw [if_neg (show ¬bc + pc > 0 from by omega),
          if_pos (show bc + pc = 0 from h0)]
        simp only [beq_iff_eq]
      · rw [if_pos (show bc + pc > 0 from h0),
          if_neg (show ¬bc + pc = 0 from by omega)]
        simp only [beq_iff_eq]
  · have e15 : evaluatePattern (List.replicate 15 "B") = 11/10 := by
      rw [show List.replicate 15 "B" =
        ["B", "B", "B", "B", "B", "B", "B", "B", "B", "B", "B", "B", "B", "B", "B"]
        from rfl]
      simp [evaluatePattern]
      try norm_num
    have e10 : evaluatePattern (List.replicate 10 "B") = 11/10 := by
      rw [show List.replicate 10 "B" =
        ["B", "B", "B", "B", "B", "B", "B", "B", "B", "B"] from rfl]
      simp [evaluatePattern]
      try norm_num
    rw [e15, e10]

/-- C5: the baccarat point sum agrees with the specification's
formulation (skip non-numeric entries, map ten-or-higher to 0, sum,
reduce modulo 10); the card sub-score takes only the values
-0.3, 0, 0.3, with the sign determined by comparing the two digits; and
the two worked examples [10,10,10] ↦ 0 and [7,8] ↦ 5 hold. -/
theorem claim_C5 :
    (∀ cs : List (Option ℚ), baccaratPointSum cs = pointSumSpec cs) ∧
    (∀ b p : JsField (Option ℚ),
      evaluateCardPoints b p = -0.3 ∨ evaluateCardPoints b p = 0 ∨
        evaluateCardPoints b p = 0.3) ∧
    (∀ b p : List (Option ℚ),
      (baccaratPointSum p < baccaratPointSum b →
        evaluateCardPoints (.arr b) (.arr p) = -0.3) ∧
      (baccaratPointSum b < baccaratPointSum p →
        evaluateCardPoints (.arr b) (.arr p) = 0.3) ∧
      (baccaratPointSum b = baccaratPointSum p →
        evaluateCardPoints (.arr b) (.arr p) = 0)) ∧
    baccaratPointSum [some 10, some 10, some 10] = 0 ∧
    baccaratPointSum [some 7, some 8] = 5 := by
  refine ⟨?_, evaluateCardPoints_mem, ?_, ?_, ?_⟩
  · intro cs
    unfold baccaratPointSum pointSumSpec
    rw [foldl_points, zero_add]
  · intro b p
    refine ⟨fun h => ?_, fun h => ?_, fun h => ?_⟩
    · show (if baccaratPointSum b - baccaratPointSum p > 0 then (-0.3 : ℚ)
        else if baccaratPointSum b - baccaratPointSum p < 0 then 0.3 else 0) = -0.3
      rw [if_pos (by linarith)]
    · show (if baccaratPointSum b - baccaratPointSum p > 0 then (-0.3 : ℚ)
        else if baccaratPointSum b - baccaratPointSum p < 0 then 0.3 else 0) = 0.3
      rw [if_neg (by linarith), if_pos (by linarith)]
    · show (if baccaratPointSum b - baccaratPointSum p > 0 then (-0.3 : ℚ)
        else if baccaratPointSum b - baccaratPointSum p < 0 then 0.3 else 0) = 0
      rw [if_neg (by linarith), if_neg (by linarith)]
  · norm_num [baccaratPointSum, jsMod, jsTrunc]
  · norm_num [baccaratPointSum, jsMod, jsTrunc]

/-- C5 (witness): a banker hand of digit 7 against a player hand of
digit 3 scores exactly -0.3. -/
theorem claim_C5_witness :
    evaluateCardPoints (.arr [some 7]) (.arr [some 3]) = -0.3 :=
  (claim_C5.2.2.1 [some 7] [some 3]).1 (by norm_num [baccaratPointSum, jsMod, jsTrunc])

/-- C6: the down-road sub-score is the normalized sum of the colour
contributions of the three most recent entries only; RED contributes
+0.5, BLUE -0.5, anything else (empty, absent or an unknown symbol) 0;
three REDs give exactly 1 and three BLUEs exactly -1. -/
theorem claim_C6 :
    (∀ b s c : List String,
      evaluateDownRoad (.obj ⟨.arr b, .arr s, .arr c⟩) =
        .ok ((toScore b.getLast? + toScore s.getLast? + toScore c.getLast?) / 1.5)) ∧
    toScore (some "R") = 0.5 ∧
    toScore (some "B") = -0.5 ∧
    toScore none = 0 ∧
    (∀ x : String, x ≠ "R" → x ≠ "B" → toScore (some x) = 0) ∧
    (∀ s c : JsField String,
      evaluateDownRoad (.obj ⟨.undef, s, c⟩) =
        evaluateDownRoad (.obj ⟨.arr [], s, c⟩)) ∧
    evaluateDownRoad (.obj ⟨.arr ["R"], .arr ["R"], .arr ["R"]⟩) = .ok 1 ∧
    evaluateDownRoad (.obj ⟨.arr ["B"], .arr ["B"], .arr ["B"]⟩) = .ok (-1) := by
  refine ⟨fun b s c => rfl, by norm_num [toScore],
    by norm_num [toScore, string_B_ne_R], rfl,
    ?_, fun s c => rfl, ?_, ?_⟩
  · intro x hR hB
    simp [toScore, beq_iff_eq, hR, hB]
  · norm_num [evaluateDownRoad, readLast, toScore, JsField.defaulted, string_B_ne_R]
  · norm_num [evaluateDownRoad, readLast, toScore, JsField.defaulted, string_B_ne_R]

/-- C6 (witness): an unknown colour symbol contributes 0. -/
theorem claim_C6_witness : toScore (some "T") = 0 :=
  claim_C6.2.2.2.2.1 "T" (by decide) (by decide)

/-- C10: swapping the two hands negates the card sub-score, and equal
hands always score 0. -/
theorem claim_C10 :
    (∀ b p : List (Option ℚ),
      evaluateCardPoints (.arr b) (.arr p) = -evaluateCardPoints (.arr p) (.arr b)) ∧
    (∀ b : List (Option ℚ), evaluateCardPoints (.arr b) (.arr b) = 0) := by
  constructor
  · intro b p
    exact signBranch_neg (baccaratPointSum b) (baccaratPointSum p)
  · intro b
    show (if baccaratPointSum b - baccaratPointSum b > 0 then (-0.3 : ℚ)
      else if baccaratPointSum b - baccaratPointSum b < 0 then 0.3 else 0) = 0
    rw [sub_self]
    norm_num

end LittleP
